import Mathlib

/-!
Verification of the infa_mcc_utils scripts: a shallow embedding of the
catalog-source scan runner (`mcc_run_scanner.py`) and of the classification
export/import scripts (`mcc_export_classification.py`,
`mcc_import_classification.py`), together with theorems about the embedded
functions.

Modelling conventions:
- Python dictionaries are association lists `List (String × Val)` preserving
  insertion order; `Val` is a JSON value, kept abstract except for strings
  (`Val.str`); `Val.blob b n` stands for any non-string value, carrying its
  Python truthiness `b` and an opaque tag `n`.
- Remote HTTP calls are parameters of type `Except Unit _`: `Except.error`
  models the call raising an exception.
- `logging` calls, file I/O and `argparse` are external collaborators and are
  not modelled, except where a function mutates its argument (the mutated
  caller-visible dictionary is returned explicitly).
- The monitor's clock is a test clock: only `time.sleep(poll_interval)`
  advances elapsed time, matching the spec's own test-clock framing; the
  monitor consumes a finite script of poll responses, and exhausting the
  script models a transport failure while polling (which the source catches
  and converts to `(False, None)`).
-/

namespace Mcc

/-- A Python value stored in a dictionary: a string, or any other value
(`blob`), carrying its Python truthiness and an opaque identity tag. -/
inductive Val where
  | str : String → Val
  | blob : Bool → Nat → Val
deriving DecidableEq

/-- Python truthiness of a value: a string is truthy iff non-empty. -/
def pyTruthy : Val → Bool
  | Val.str s => s ≠ ""
  | Val.blob b _ => b

/-- Python `s.lower()` on a string: character-wise lowering. -/
def pyStrLower (s : String) : String :=
  String.mk (s.data.map Char.toLower)

/-- Python `s.upper()` on a string: character-wise uppering. -/
def pyStrUpper (s : String) : String :=
  String.mk (s.data.map Char.toUpper)

/-- Python `suffix`-test `s.endswith(p)`. -/
def pyEndsWith (s suffix : String) : Bool :=
  s.data.drop (s.data.length - suffix.data.length) == suffix.data

/-- Python `.lower()`: raises `AttributeError` on a non-string value. -/
def pyLower : Val → Except Unit String
  | Val.str s => Except.ok (pyStrLower s)
  | Val.blob _ _ => Except.error ()

/-- Python `.upper()`: raises `AttributeError` on a non-string value. -/
def pyUpper : Val → Except Unit String
  | Val.str s => Except.ok (pyStrUpper s)
  | Val.blob _ _ => Except.error ()

/-- Whether a value is a Python string. -/
def Val.isStr : Val → Bool
  | Val.str _ => true
  | Val.blob _ _ => false

/-- The underlying string of a value (junk default `""` on non-strings;
only used under an `isStr` hypothesis). -/
def Val.strD : Val → String
  | Val.str s => s
  | Val.blob _ _ => ""

/-- A Python dictionary: key/value pairs in insertion order. -/
abbrev Dict := List (String × Val)

/-- Python `d.get(k)` / `d[k]`-style lookup (first matching key). -/
def dictGet : Dict → String → Option Val
  | [], _ => none
  | kv :: rest, k => if kv.1 == k then some kv.2 else dictGet rest k

/-- Python `d.get(k, default)`. -/
def dictGetD (d : Dict) (k : String) (dflt : Val) : Val :=
  (dictGet d k).getD dflt

/-- Python `k in d`. -/
def dictContains (d : Dict) (k : String) : Bool :=
  (dictGet d k).isSome

/-- Python `del d[k]`: removes the entry with key `k`
(keys are unique in a Python dictionary). -/
def dictDel (d : Dict) (k : String) : Dict :=
  d.filter (fun kv => kv.1 != k)

/-- Python `d[k] = v`: overwrites the value in place when the key exists,
otherwise appends the new entry at the end (insertion order). -/
def dictSet : Dict → String → Val → Dict
  | [], k, v => [(k, v)]
  | kv :: rest, k, v => if kv.1 == k then (kv.1, v) :: rest else kv :: dictSet rest k v

/-- Python `x or y` on two optional values (`None` is falsy). -/
def pyOr (x y : Option Val) : Option Val :=
  match x with
  | some v => if pyTruthy v then some v else y
  | none => y

/-! Classification import (`mcc_import_classification.py`). -/

/-- The `metadata_fields` list of `prepare_classification_for_import`. -/
def metadata_fields : List String :=
  ["export_date", "export_org", "export_user", "id"]

/-- Embeds `prepare_classification_for_import` (lines 59-67): copy the
record, then delete each metadata field that is present. -/
def prepare_classification_for_import (classification : Dict) : Dict :=
  metadata_fields.foldl
    (fun prepared field => if dictContains prepared field then dictDel prepared field else prepared)
    classification

/-- The CDGC internal client consumed by the import script: the result of
`get_all_classifications()`, and the behaviors of
`update_classification(id, payload)` and `import_classification(payload)`.
`Except.error` models the remote call raising. -/
structure Client where
  get_all_classifications : Except Unit (List Dict)
  update_classification : Option Val → Dict → Except Unit Dict
  import_classification_call : Dict → Except Unit Dict

/-- The scan inside `classification_exists` (lines 74-78):
`c.get('name', '').lower() == classification_name.lower()`, first match wins.
`.lower()` on a non-string raises, but only when the loop body runs. -/
def classification_exists_scan (classification_name : Val) : List Dict → Except Unit (Option Dict)
  | [] => Except.ok none
  | c :: rest =>
    match pyLower (dictGetD c "name" (Val.str "")) with
    | Except.error e => Except.error e
    | Except.ok cLower =>
      match pyLower classification_name with
      | Except.error e => Except.error e
      | Except.ok nameLower =>
        if cLower == nameLower then Except.ok (some c)
        else classification_exists_scan classification_name rest

/-- Embeds `classification_exists` (lines 70-82): fetch the full remote
collection, then scan it by name; any exception is logged and re-raised. -/
def classification_exists (client : Client) (classification_name : Val) : Except Unit (Option Dict) :=
  match client.get_all_classifications with
  | Except.error e => Except.error e
  | Except.ok classifications => classification_exists_scan classification_name classifications

/-- A write call issued against the remote store. -/
inductive WriteCall where
  | update : Option Val → Dict → WriteCall
  | create : Dict → WriteCall
deriving DecidableEq

/-- The per-record outcome of a reconcile step (derived from the four
distinct logging paths of `import_classification`). -/
inductive Action where
  | Created
  | Updated
  | Skipped
  | Failed
deriving DecidableEq

/-- The create path of `import_classification` (lines 102-104). -/
def runCreate (client : Client) (prepared : Dict) : List WriteCall × Action :=
  match client.import_classification_call prepared with
  | Except.ok _ => ([WriteCall.create prepared], Action.Created)
  | Except.error _ => ([WriteCall.create prepared], Action.Failed)

/-- Embeds `import_classification` (lines 85-108), and returns the write
calls issued plus the outcome. Every exception is caught (the Python
function returns `None`; the pair here is ghost instrumentation).
Note `if existing:` in the source is Python truthiness: both `None` and an
empty matched dictionary take the create branch. -/
def import_classification (client : Client) (classification : Dict) (update_if_exists : Bool) :
    List WriteCall × Action :=
  let classification_name := dictGetD classification "name" (Val.str "Unknown")
  let prepared := prepare_classification_for_import classification
  match classification_exists client classification_name with
  | Except.error _ => ([], Action.Failed)
  | Except.ok (some existing) =>
    if existing.isEmpty then runCreate client prepared
    else if update_if_exists then
      match client.update_classification (dictGet existing "id") prepared with
      | Except.ok _ => ([WriteCall.update (dictGet existing "id") prepared], Action.Updated)
      | Except.error _ => ([WriteCall.update (dictGet existing "id") prepared], Action.Failed)
    else ([], Action.Skipped)
  | Except.ok none => runCreate client prepared

/-- Embeds `read_classification_file` (lines 36-56): the file's parsed
content (or a read/parse exception), then the `'name' not in data`
validation, which raises `ValueError`. -/
def read_classification_file (fileData : Except Unit Dict) : Except Unit Dict :=
  match fileData with
  | Except.error e => Except.error e
  | Except.ok data => if dictContains data "name" then Except.ok data else Except.error ()

/-- Embeds `import_classification_from_file` (lines 111-114): read (which
may raise out of this function), then import (which never raises). -/
def import_classification_from_file (client : Client) (fileData : Except Unit Dict)
    (update_if_exists : Bool) : Except Unit (List WriteCall × Action) :=
  match read_classification_file fileData with
  | Except.error e => Except.error e
  | Except.ok classification => Except.ok (import_classification client classification update_if_exists)

/-- What the batch loop records for one file: `none` when the file's
processing raised and the exception was caught by the loop (lines 137-138),
otherwise the reconcile outcome. -/
def processFileOutcome (client : Client) (update_if_exists : Bool) (fileData : Except Unit Dict) :
    List WriteCall × Option Action :=
  match import_classification_from_file client fileData update_if_exists with
  | Except.error _ => ([], none)
  | Except.ok (tr, a) => (tr, some a)

/-- The Python return value of `import_all_from_directory`: the function
returns `[]` when the directory holds no JSON files and otherwise falls off
the end, returning `None`. -/
inductive BatchReturn where
  | pyNone
  | emptyList
deriving DecidableEq

/-- Embeds `import_all_from_directory` (lines 117-138) for a valid
directory, given its listing as (filename, parsed content or exception)
pairs: filter to `*.json`, then process each file in order, catching
per-file exceptions and continuing. The outcome list is ghost
instrumentation of the loop. -/
def import_all_from_directory (client : Client) (files : List (String × Except Unit Dict))
    (update_if_exists : Bool) : BatchReturn × List (List WriteCall × Option Action) :=
  let json_files := files.filter (fun f => pyEndsWith f.1 ".json")
  if json_files.isEmpty then (BatchReturn.emptyList, [])
  else (BatchReturn.pyNone, json_files.map (fun f => processFileOutcome client update_if_exists f.2))

/-! Catalog-source search, execution and monitoring (`mcc_run_scanner.py`). -/

/-- A search hit: the asset dictionary's `summary` and `systemAttributes`
sub-dictionaries. -/
structure Asset where
  summary : Dict
  systemAttributes : Dict
deriving DecidableEq

/-- The search response consumed by `search_catalog_source`:
`summary.total_hits` and the hit list. -/
structure SearchResults where
  total_hits : Nat
  hits : List Asset
deriving DecidableEq

/-- The scan of lines 71-73: first hit whose `summary['core.name'].lower()`
equals the target name lowered; a missing key or non-string name raises. -/
def scan_hits (sourceName : String) : List Asset → Except Unit (Option Asset)
  | [] => Except.ok none
  | asset :: rest =>
    match dictGet asset.summary "core.name" with
    | none => Except.error ()
    | some v =>
      match pyLower v with
      | Except.error e => Except.error e
      | Except.ok s => if s == pyStrLower sourceName then Except.ok (some asset) else scan_hits sourceName rest

/-- Embeds `search_catalog_source` (lines 33-86), the search response being
a parameter (`none` models a falsy response object). Any exception in the
`try` block is caught and converted to `(False, None)`. -/
def search_catalog_source (searchResults : Option SearchResults) (sourceName : String) :
    Bool × Option Asset :=
  match searchResults with
  | none => (false, none)
  | some res =>
    if res.total_hits > 0 then
      match scan_hits sourceName res.hits with
      | Except.error _ => (false, none)
      | Except.ok (some asset) => (true, some asset)
      | Except.ok none =>
        match res.hits with
        | [] => (false, none)
        | first :: _ => (true, some first)
    else (false, none)

/-- The job information dictionary built by `execute_catalog_source`
(lines 129-134). -/
structure JobInfo where
  jobId : Val
  jobUri : Option Val
  catalogSourceName : Option Val
  catalogSourceId : Option Val
deriving DecidableEq

/-- Embeds `execute_catalog_source` (lines 89-166), the remote
`run_catalog_source_job` response being a parameter. A raised error (both
the `CDGCAPIError` branch, whose 500-message extraction only logs, and the
generic branch) yields `(False, None)`; a response whose `jobId` is missing
or falsy yields `(False, None)`. -/
def execute_catalog_source (catalogSource : Asset) (runResult : Except Unit Dict) :
    Bool × Option JobInfo :=
  let catalog_source_id := dictGet catalogSource.systemAttributes "core.origin"
  let catalog_source_name := dictGet catalogSource.summary "core.name"
  match runResult with
  | Except.error _ => (false, none)
  | Except.ok result =>
    let job_id := dictGet result "jobId"
    let job_uri := pyOr (dictGet result "jobUri") (dictGet result "trackingURI")
    match job_id with
    | some v =>
      if pyTruthy v then
        (true, some { jobId := v, jobUri := job_uri,
                      catalogSourceName := catalog_source_name,
                      catalogSourceId := catalog_source_id })
      else (false, none)
    | none => (false, none)

/-- The result of `monitor_job`: the returned pair, plus the number of
`get_job_status` calls issued (ghost instrumentation). -/
structure MonitorResult where
  success : Bool
  finalStatus : Option Dict
  fetches : Nat
deriving DecidableEq

/-- The normalized state string of a status dictionary:
`status.get("status", "").upper()` (junk on non-string values; only used
under an `isStr` hypothesis). -/
def job_state_of (status : Dict) : String :=
  pyStrUpper ((dictGetD status "status" (Val.str "")).strD)

/-- The remote states reported as success (lines 207 and 213). -/
abbrev isSuccState (s : String) : Prop :=
  s ∈ (["COMPLETED", "SUCCESS", "SUCCESSFUL", "PARTIAL_COMPLETED"] : List String)

/-- The remote states reported as failure (line 219). -/
abbrev isFailState (s : String) : Prop :=
  s ∈ (["FAILED", "ERROR", "CANCELLED"] : List String)

/-- A terminal remote state. -/
abbrev isTerminalState (s : String) : Prop :=
  isSuccState s ∨ isFailState s

/-- Embeds the `while True` loop of `monitor_job` (lines 193-225) under a
test clock: `elapsed` is the value of `time.time() - start_time` at the top
of the iteration, advanced only by `time.sleep(poll_interval)`. The script
lists the successive `get_job_status` responses; exhausting it models a
transport failure while polling. The raised `TimeoutError` and
`CDGCAPIError` are caught by the function's own handlers, which return
`(False, None)`. -/
def monitor_go (script : List Dict) (poll_interval timeout elapsed fetches : Nat) : MonitorResult :=
  if elapsed > timeout then ⟨false, none, fetches⟩
  else
    match script with
    | [] => ⟨false, none, fetches + 1⟩
    | status :: rest =>
      match pyUpper (dictGetD status "status" (Val.str "")) with
      | Except.error _ => ⟨false, none, fetches + 1⟩
      | Except.ok job_state =>
        if job_state ∈ (["COMPLETED", "SUCCESS", "SUCCESSFUL"] : List String) then
          ⟨true, some status, fetches + 1⟩
        else if job_state ∈ (["PARTIAL_COMPLETED"] : List String) then
          ⟨true, some status, fetches + 1⟩
        else if job_state ∈ (["FAILED", "ERROR", "CANCELLED"] : List String) then
          ⟨false, none, fetches + 1⟩
        else monitor_go rest poll_interval timeout (elapsed + poll_interval) (fetches + 1)

/-- Embeds `monitor_job` (lines 169-237): the loop starts with zero elapsed
time and no status fetched. -/
def monitor_job (script : List Dict) (poll_interval timeout : Nat) : MonitorResult :=
  monitor_go script poll_interval timeout 0 0

/-- The spec-side property of claim C1, following the spec's words: the
first terminal remote state observed is a success state, every earlier
observed state is non-terminal, and the fetch observing it happens before
the timeout elapses. -/
def FirstTerminalIsSuccess (script : List Dict) (poll_interval timeout : Nat) : Prop :=
  ∃ pre d post, script = pre ++ d :: post ∧ isSuccState (job_state_of d) ∧
    (∀ d' ∈ pre, ¬ isTerminalState (job_state_of d')) ∧
    pre.length * poll_interval ≤ timeout

/-! Classification export (`mcc_export_classification.py`). -/

/-- The per-character sanitization of `create_json_filename` (line 40):
`c if c.isalnum() or c in ('-', '_') else '_'`. Python's `str.isalnum` is
Unicode-aware; it is modelled exactly for code points up to U+024F (ASCII
alphanumerics, plus the Latin-1 Supplement and Latin Extended-A/B letters,
which are all the code points of those blocks except the two operators
U+00D7 and U+00F7). -/
def pyIsAlnum (c : Char) : Bool :=
  c.isAlphanum || (0xC0 ≤ c.toNat && c.toNat ≤ 0x24F && c.toNat != 0xD7 && c.toNat != 0xF7)

/-- One character of the sanitized name. -/
def pySanChar (c : Char) : Char :=
  if pyIsAlnum c || c == '-' || c == '_' then c else '_'

/-- The `safe_name` computation of `create_json_filename` (line 40). -/
def pySafeName (base_name : String) : String :=
  String.mk (base_name.data.map pySanChar)

/-- Embeds `create_json_filename` (lines 29-42); the timestamp
(`datetime.now().strftime("%Y%m%d_%H%M%S")`) is a parameter. -/
def create_json_filename (base_name : String) (timestamp : String) : String :=
  pySafeName base_name ++ "_" ++ timestamp ++ ".json"

/-- Embeds the mutation and write of `save_classification_to_file`
(lines 69-105); `export_date` (`datetime.utcnow()` formatted),
`export_org` (`auth.org_name`) and `export_user` (`auth.user_id`) are
parameters. The source assigns the three fields into the `classification`
argument itself and then dumps that same object to the file, so the result
is (caller's dictionary after the call, JSON document written) — the same
dictionary. -/
def save_classification_to_file (classification : Dict)
    (export_date export_org export_user : Val) : Dict × Dict :=
  let c1 := dictSet classification "export_date" export_date
  let c2 := dictSet c1 "export_org" export_org
  let c3 := dictSet c2 "export_user" export_user
  (c3, c3)

/-- The caller-visible effect of calling `prepare_classification_for_import`:
the source starts with `prepared = classification.copy()` and only mutates
the copy, so the result is (caller's dictionary after the call, returned
prepared copy) with the argument unchanged. -/
def prepare_call (classification : Dict) : Dict × Dict :=
  (classification, prepare_classification_for_import classification)

/-- The reconciliation matching predicate of `classification_exists`:
`c.get('name', '').lower() == classification_name.lower()` (for a string
target name and records whose name values are strings). -/
def nameMatches (nm : String) (c : Dict) : Bool :=
  pyStrLower (dictGetD c "name" (Val.str "")).strD == pyStrLower nm

/-- The exact-match predicate of `search_catalog_source`:
`asset['summary']['core.name'].lower() == sourceName.lower()`. -/
def hitMatches (nm : String) (a : Asset) : Bool :=
  match dictGet a.summary "core.name" with
  | some (Val.str s) => pyStrLower s == pyStrLower nm
  | _ => false

/-- Whether a search hit carries a string `core.name` in its summary
(the well-formedness the remote search contract guarantees). -/
def hasStrName (a : Asset) : Bool :=
  match dictGet a.summary "core.name" with
  | some (Val.str _) => true
  | _ => false

/-! Dictionary lemmas. -/

theorem dictGet_dictSet_self (d : Dict) (k : String) (v : Val) :
    dictGet (dictSet d k v) k = some v := by
  induction d with
  | nil => simp [dictSet, dictGet]
  | cons kv rest ih =>
    by_cases h : kv.1 = k
    · simp [dictSet, dictGet, h]
    · simp [dictSet, dictGet, h, ih]

theorem dictGet_dictSet_ne (d : Dict) (k k2 : String) (v : Val) (h : k2 ≠ k) :
    dictGet (dictSet d k v) k2 = dictGet d k2 := by
  induction d with
  | nil => simp [dictSet, dictGet, Ne.symm h]
  | cons kv rest ih =>
    by_cases hk : kv.1 = k
    · simp [dictSet, dictGet, hk, Ne.symm h]
    · simp [dictSet, dictGet, hk, ih]

theorem dictGet_eq_none_of_not_contains (d : Dict) (k : String)
    (h : dictContains d k = false) : dictGet d k = none := by
  unfold dictContains at h
  cases hg : dictGet d k with
  | none => rfl
  | some v => rw [hg] at h; simp at h

theorem dictSet_of_not_contains (d : Dict) (k : String) (v : Val)
    (h : dictContains d k = false) : dictSet d k v = d ++ [(k, v)] := by
  induction d with
  | nil => simp [dictSet]
  | cons kv rest ih =>
    by_cases hk : kv.1 = k
    · exfalso
      simp [dictContains, dictGet, hk] at h
    · simp only [dictContains, dictGet] at h
      rw [if_neg (by simp [hk])] at h
      simp [dictSet, hk, ih h]

theorem dictDel_of_not_contains (d : Dict) (k : String)
    (h : dictContains d k = false) : dictDel d k = d := by
  induction d with
  | nil => simp [dictDel]
  | cons kv rest ih =>
    by_cases hk : kv.1 = k
    · exfalso
      simp [dictContains, dictGet, hk] at h
    · simp only [dictContains, dictGet] at h
      rw [if_neg (by simp [hk])] at h
      have hr := ih h
      simp only [dictDel, List.filter_cons] at hr ⊢
      rw [if_pos (by simp [hk]), hr]

theorem dictContains_of_mem (d : Dict) (kv : String × Val) (h : kv ∈ d) :
    dictContains d kv.1 = true := by
  induction d with
  | nil => simp at h
  | cons kv2 rest ih =>
    rcases List.mem_cons.mp h with h1 | h1
    · simp [dictContains, dictGet, h1]
    · by_cases hk : kv2.1 = kv.1
      · simp [dictContains, dictGet, hk]
      · simpa [dictContains, dictGet, hk] using ih h1

theorem foldl_del_eq_filter (fs : List String) (d : Dict) :
    fs.foldl (fun p f => if dictContains p f then dictDel p f else p) d
      = d.filter (fun kv => !(fs.contains kv.1)) := by
  induction fs generalizing d with
  | nil => simp
  | cons f fs ih =>
    have hstep : (if dictContains d f then dictDel d f else d) = dictDel d f := by
      by_cases hc : dictContains d f
      · simp [hc]
      · simp only [Bool.not_eq_true] at hc
        simp [hc, dictDel_of_not_contains d f hc]
    rw [List.foldl_cons, hstep, ih, dictDel, List.filter_filter]
    apply List.filter_congr
    intro kv _
    by_cases hkf : kv.1 = f <;>
      simp [List.contains_cons, Bool.not_or, Bool.and_comm, bne, hkf]

theorem prepare_eq_filter (d : Dict) :
    prepare_classification_for_import d
      = d.filter (fun kv => !(metadata_fields.contains kv.1)) :=
  foldl_del_eq_filter metadata_fields d

theorem dictGet_append (d1 d2 : Dict) (k : String) :
    dictGet (d1 ++ d2) k = ((dictGet d1 k).or (dictGet d2 k)) := by
  induction d1 with
  | nil => simp [dictGet]
  | cons kv rest ih =>
    by_cases hk : kv.1 = k
    · simp [dictGet, hk]
    · simp [dictGet, hk, ih]

theorem dictContains_append (d1 d2 : Dict) (k : String) :
    dictContains (d1 ++ d2) k = (dictContains d1 k || dictContains d2 k) := by
  unfold dictContains
  rw [dictGet_append]
  cases dictGet d1 k <;> simp

theorem filter_meta_eq_self (d : Dict)
    (h : ∀ f ∈ metadata_fields, dictContains d f = false) :
    d.filter (fun kv => !(metadata_fields.contains kv.1)) = d := by
  apply List.filter_eq_self.mpr
  intro kv hkv
  by_contra hc
  simp only [Bool.not_eq_true, Bool.not_eq_false] at hc
  have hmem : kv.1 ∈ metadata_fields := by simpa using hc
  have := h kv.1 hmem
  rw [dictContains_of_mem d kv hkv] at this
  simp at this

/-- Claim C7: preparing a record for import removes exactly the four fields
`export_date`, `export_org`, `export_user` and `id` (when present), leaving
every other field identical and in order; consequently a record holding none
of those four fields, once exported (the three export fields assigned into
it) and then prepared for re-import, is unchanged. -/
theorem mcc_c7 (classification : Dict) (export_date export_org export_user : Val) :
    prepare_classification_for_import classification
      = classification.filter (fun kv => !(metadata_fields.contains kv.1))
    ∧ ((∀ f ∈ metadata_fields, dictContains classification f = false) →
        prepare_classification_for_import
          ((save_classification_to_file classification export_date export_org export_user).1)
          = classification) := by
  refine ⟨prepare_eq_filter classification, fun h => ?_⟩
  have h1 : dictContains classification "export_date" = false := h _ (by simp [metadata_fields])
  have h2 : dictContains classification "export_org" = false := h _ (by simp [metadata_fields])
  have h3 : dictContains classification "export_user" = false := h _ (by simp [metadata_fields])
  have s1 : dictSet classification "export_date" export_date
      = classification ++ [("export_date", export_date)] :=
    dictSet_of_not_contains _ _ _ h1
  have c2 : dictContains (classification ++ [("export_date", export_date)]) "export_org" = false := by
    rw [dictContains_append, h2]
    simp [dictContains, dictGet]
  have s2 : dictSet (classification ++ [("export_date", export_date)]) "export_org" export_org
      = classification ++ [("export_date", export_date)] ++ [("export_org", export_org)] :=
    dictSet_of_not_contains _ _ _ c2
  have c3 : dictContains (classification ++ [("export_date", export_date)]
      ++ [("export_org", export_org)]) "export_user" = false := by
    rw [dictContains_append, dictContains_append, h3]
    simp [dictContains, dictGet]
  have s3 : dictSet (classification ++ [("export_date", export_date)]
        ++ [("export_org", export_org)]) "export_user" export_user
      = classification ++ [("export_date", export_date)] ++ [("export_org", export_org)]
        ++ [("export_user", export_user)] :=
    dictSet_of_not_contains _ _ _ c3
  show prepare_classification_for_import
      (dictSet (dictSet (dictSet classification "export_date" export_date)
        "export_org" export_org) "export_user" export_user) = classification
  rw [s1, s2, s3, prepare_eq_filter, List.filter_append, List.filter_append,
    List.filter_append, filter_meta_eq_self classification h]
  simp [metadata_fields]

/-- Witness for C7 at a concrete record without the four metadata fields. -/
theorem mcc_c7_witness :
    prepare_classification_for_import
      ((save_classification_to_file [("name", Mcc.Val.str "c"), ("description", Mcc.Val.str "x")]
        (Mcc.Val.str "d") (Mcc.Val.str "o") (Mcc.Val.str "u")).1)
      = [("name", Mcc.Val.str "c"), ("description", Mcc.Val.str "x")] :=
  (mcc_c7 [("name", Mcc.Val.str "c"), ("description", Mcc.Val.str "x")]
    (Mcc.Val.str "d") (Mcc.Val.str "o") (Mcc.Val.str "u")).2 (by decide)

/-- Claim C10: saving a classification mutates the caller's record in
place — after the call the argument dictionary holds the three export
metadata fields, and the JSON document written is that same mutated
dictionary — whereas preparing for import works on a copy and leaves the
caller's dictionary unchanged. -/
theorem mcc_c10 (classification : Dict) (export_date export_org export_user : Val) :
    (dictGet (save_classification_to_file classification export_date export_org export_user).1
        "export_date" = some export_date
      ∧ dictGet (save_classification_to_file classification export_date export_org export_user).1
          "export_org" = some export_org
      ∧ dictGet (save_classification_to_file classification export_date export_org export_user).1
          "export_user" = some export_user)
    ∧ (save_classification_to_file classification export_date export_org export_user).2
        = (save_classification_to_file classification export_date export_org export_user).1
    ∧ prepare_call classification
        = (classification, prepare_classification_for_import classification) := by
  refine ⟨⟨?_, ?_, ?_⟩, rfl, rfl⟩
  · show dictGet (dictSet (dictSet (dictSet classification "export_date" export_date)
        "export_org" export_org) "export_user" export_user) "export_date" = some export_date
    rw [dictGet_dictSet_ne _ _ _ _ (by decide), dictGet_dictSet_ne _ _ _ _ (by decide),
      dictGet_dictSet_self]
  · show dictGet (dictSet (dictSet (dictSet classification "export_date" export_date)
        "export_org" export_org) "export_user" export_user) "export_org" = some export_org
    rw [dictGet_dictSet_ne _ _ _ _ (by decide), dictGet_dictSet_self]
  · exact dictGet_dictSet_self _ _ _

/-! Filename sanitization. -/

/-- Counterexample to C9 as stated: the character `é` is outside
`[A-Za-z0-9_-]`, yet sanitization keeps it (Python `str.isalnum` is
Unicode-aware), instead of replacing it with `_`. -/
theorem mcc_c9_counterexample :
    (('é'.isAlphanum || 'é' == '-' || 'é' == '_') = false)
    ∧ pySafeName "é" = "é" ∧ ("é" : String) ≠ "_" := by decide

/-- Claim C9 (amended): sanitization replaces every character that is
neither Python-alphanumeric (Unicode-aware) nor `-` nor `_` with `_`; on
ASCII-only base names this coincides with the claimed `[A-Za-z0-9_-]` rule,
and `"My Source #1"` yields `My_Source__1_{timestamp}.json`. -/
theorem mcc_c9 (base_name timestamp : String)
    (hascii : ∀ c ∈ base_name.data, c.toNat < 128) :
    pySafeName base_name
      = String.mk (base_name.data.map
          (fun c => if c.isAlphanum || c == '-' || c == '_' then c else '_'))
    ∧ create_json_filename "My Source #1" timestamp
        = "My_Source__1_" ++ timestamp ++ ".json" := by
  constructor
  · unfold pySafeName
    congr 1
    apply List.map_congr_left
    intro c hc
    have hlt : ¬ (0xC0 ≤ c.toNat) := by
      have := hascii c hc
      omega
    simp [pySanChar, pyIsAlnum, hlt]
  · show pySafeName "My Source #1" ++ "_" ++ timestamp ++ ".json"
        = "My_Source__1_" ++ timestamp ++ ".json"
    have : pySafeName "My Source #1" = "My_Source__1" := by decide
    rw [this]
    simp [String.append_assoc]

/-- Witness for C9 at a concrete ASCII base name and timestamp. -/
theorem mcc_c9_witness :
    pySafeName "My file"
      = String.mk (("My file" : String).data.map
          (fun c => if c.isAlphanum || c == '-' || c == '_' then c else '_'))
    ∧ create_json_filename "My Source #1" "20240101_000000"
        = "My_Source__1_" ++ "20240101_000000" ++ ".json" :=
  mcc_c9 "My file" "20240101_000000" (by decide)

/-! Reconciliation lemmas and claims. -/

theorem classification_exists_scan_eq_find (nm : String) (l : List Dict)
    (h : ∀ c ∈ l, (dictGetD c "name" (Val.str "")).isStr = true) :
    classification_exists_scan (Val.str nm) l = Except.ok (l.find? (nameMatches nm)) := by
  induction l with
  | nil => simp [classification_exists_scan]
  | cons c rest ih =>
    have hc := h c (List.mem_cons_self c rest)
    have hrest : ∀ x ∈ rest, (dictGetD x "name" (Val.str "")).isStr = true :=
      fun x hx => h x (List.mem_cons_of_mem c hx)
    cases hv : dictGetD c "name" (Val.str "") with
    | blob b n => rw [hv] at hc; simp [Val.isStr] at hc
    | str s =>
      have hm : nameMatches nm c = (pyStrLower s == pyStrLower nm) := by
        simp [nameMatches, hv, Val.strD]
      by_cases hmatch : (pyStrLower s == pyStrLower nm) = true
      · simp only [classification_exists_scan, hv, pyLower]
        rw [if_pos hmatch, List.find?_cons_of_pos _ (by rw [hm]; exact hmatch)]
      · simp only [classification_exists_scan, hv, pyLower]
        rw [if_neg hmatch, List.find?_cons_of_neg _ (by rw [hm]; simpa using hmatch), ih hrest]

/-- Claim C2: a single reconcile step against a remote collection — when a
record with the same name (case-insensitive, first match in collection
order) exists, `updateIfExists = true` issues exactly the update call with
that record's remote ID and the prepared payload (Updated), and
`updateIfExists = false` issues no write call at all (Skipped); when no such
record exists, exactly the create call with the prepared payload is issued
(Created). -/
theorem mcc_c2 (remote : List Dict) (upd : Option Val → Dict → Except Unit Dict)
    (cre : Dict → Except Unit Dict) (classification : Dict) (update_if_exists : Bool)
    (nm : String)
    (hnm : dictGet classification "name" = some (Val.str nm))
    (hstr : ∀ c ∈ remote, (dictGetD c "name" (Val.str "")).isStr = true) :
    (∀ c, remote.find? (nameMatches nm) = some c → c ≠ [] →
      ((update_if_exists = true →
          ∀ r, upd (dictGet c "id") (prepare_classification_for_import classification)
              = Except.ok r →
            import_classification ⟨Except.ok remote, upd, cre⟩ classification update_if_exists
              = ([WriteCall.update (dictGet c "id")
                    (prepare_classification_for_import classification)], Action.Updated))
        ∧ (update_if_exists = false →
            import_classification ⟨Except.ok remote, upd, cre⟩ classification update_if_exists
              = ([], Action.Skipped))))
    ∧ (remote.find? (nameMatches nm) = none →
        ∀ r, cre (prepare_classification_for_import classification) = Except.ok r →
          import_classification ⟨Except.ok remote, upd, cre⟩ classification update_if_exists
            = ([WriteCall.create (prepare_classification_for_import classification)],
               Action.Created)) := by
  have hname : dictGetD classification "name" (Val.str "Unknown") = Val.str nm := by
    simp [dictGetD, hnm]
  have hex : classification_exists ⟨Except.ok remote, upd, cre⟩ (Val.str nm)
      = Except.ok (remote.find? (nameMatches nm)) := by
    unfold classification_exists
    exact classification_exists_scan_eq_find nm remote hstr
  constructor
  · intro c hfind hne
    have hemp : c.isEmpty = false := by
      cases c with
      | nil => exact absurd rfl hne
      | cons a l => rfl
    constructor
    · intro hu r hupd
      simp [import_classification, hname, hex, hfind, hemp, hu, hupd]
    · intro hu
      simp [import_classification, hname, hex, hfind, hemp, hu]
  · intro hfind r hcre
    simp [import_classification, hname, hex, hfind, runCreate, hcre]

/-- Witness for C2: a record named `Alpha` matching an existing remote
record named `alpha` with ID `X1`, under `updateIfExists = true`. -/
theorem mcc_c2_witness :
    import_classification
      ⟨Except.ok [[("name", Val.str "alpha"), ("id", Val.str "X1")]],
        fun _ _ => Except.ok [], fun _ => Except.ok []⟩
      [("name", Val.str "Alpha"), ("export_date", Val.str "d")] true
      = ([WriteCall.update (some (Val.str "X1")) [("name", Val.str "Alpha")]], Action.Updated) := by
  have h := ((mcc_c2 [[("name", Val.str "alpha"), ("id", Val.str "X1")]]
    (fun _ _ => Except.ok []) (fun _ => Except.ok [])
    [("name", Val.str "Alpha"), ("export_date", Val.str "d")] true "Alpha"
    (by decide) (by decide)).1
    [("name", Val.str "alpha"), ("id", Val.str "X1")] (by decide) (by decide)).1 rfl []
    rfl
  rw [h]
  decide

/-! Resource-resolver lemmas and claims. -/

theorem scan_hits_eq_find (nm : String) (l : List Asset)
    (h : ∀ a ∈ l, hasStrName a = true) :
    scan_hits nm l = Except.ok (l.find? (hitMatches nm)) := by
  induction l with
  | nil => simp [scan_hits]
  | cons a rest ih =>
    have ha := h a (List.mem_cons_self a rest)
    have hrest : ∀ x ∈ rest, hasStrName x = true :=
      fun x hx => h x (List.mem_cons_of_mem a hx)
    cases hg : dictGet a.summary "core.name" with
    | none => simp [hasStrName, hg] at ha
    | some v =>
      cases v with
      | blob b n => simp [hasStrName, hg] at ha
      | str s =>
        have hm : hitMatches nm a = (pyStrLower s == pyStrLower nm) := by
          simp [hitMatches, hg]
        by_cases hmatch : (pyStrLower s == pyStrLower nm) = true
        · simp only [scan_hits, hg, pyLower]
          rw [if_pos hmatch, List.find?_cons_of_pos _ (by rw [hm]; exact hmatch)]
        · simp only [scan_hits, hg, pyLower]
          rw [if_neg hmatch, List.find?_cons_of_neg _ (by rw [hm]; simpa using hmatch), ih hrest]

/-- Claim C5: when the hit list contains a case-insensitive exact match for
the requested name, the resolver returns the first such match (partial
matches elsewhere in the list notwithstanding); when the hit list is empty,
it returns a not-found result, never a substitute resource. -/
theorem mcc_c5 (res : SearchResults) (nm : String)
    (hth : res.total_hits = res.hits.length)
    (hstr : ∀ a ∈ res.hits, hasStrName a = true) :
    (∀ a, res.hits.find? (hitMatches nm) = some a →
      search_catalog_source (some res) nm = (true, some a))
    ∧ (res.hits = [] → search_catalog_source (some res) nm = (false, none)) := by
  constructor
  · intro a hfind
    have hmem : a ∈ res.hits := List.mem_of_find?_eq_some hfind
    have hpos : res.total_hits > 0 := by
      rw [hth]
      exact List.length_pos.mpr (List.ne_nil_of_mem hmem)
    simp only [search_catalog_source]
    rw [if_pos hpos, scan_hits_eq_find nm res.hits hstr, hfind]
  · intro hnil
    have hz : ¬ res.total_hits > 0 := by rw [hth, hnil]; simp
    simp only [search_catalog_source]
    rw [if_neg hz]

/-- Witness for C5: a hit list holding a partial match first and the exact
(case-insensitive) match second resolves to the exact match. -/
theorem mcc_c5_witness :
    search_catalog_source
      (some ⟨2, [⟨[("core.name", Val.str "alpha beta")], []⟩,
                 ⟨[("core.name", Val.str "ALPHA")], []⟩]⟩) "Alpha"
      = (true, some ⟨[("core.name", Val.str "ALPHA")], []⟩) :=
  (mcc_c5 ⟨2, [⟨[("core.name", Val.str "alpha beta")], []⟩,
    ⟨[("core.name", Val.str "ALPHA")], []⟩]⟩ "Alpha" (by decide) (by decide)).1
    ⟨[("core.name", Val.str "ALPHA")], []⟩ (by decide)

/-! Job-launcher claims. -/

/-- Claim C6: the launcher reports success exactly when the remote execute
call returns a response holding a truthy `jobId`; a raised error or a
missing/falsy job identifier yields a failure result, and a successful
launch always carries a truthy (for strings: non-empty) `jobId`. -/
theorem mcc_c6 (catalogSource : Asset) (runResult : Except Unit Dict) :
    ((execute_catalog_source catalogSource runResult).1 = true ↔
      ∃ result v, runResult = Except.ok result ∧ dictGet result "jobId" = some v
        ∧ pyTruthy v = true)
    ∧ (∀ info, execute_catalog_source catalogSource runResult = (true, some info) →
        pyTruthy info.jobId = true ∧ ∀ s, info.jobId = Val.str s → s ≠ "") := by
  cases runResult with
  | error e =>
    constructor
    · simp [execute_catalog_source]
    · intro info h
      simp [execute_catalog_source] at h
  | ok result =>
    cases hj : dictGet result "jobId" with
    | none =>
      constructor
      · constructor
        · intro h
          simp [execute_catalog_source, hj] at h
        · rintro ⟨r2, v, hr, hg, ht⟩
          injection hr with hr
          rw [← hr, hj] at hg
          exact absurd hg (by simp)
      · intro info h
        simp [execute_catalog_source, hj] at h
    | some v =>
      by_cases ht : pyTruthy v = true
      · constructor
        · exact ⟨fun _ => ⟨result, v, rfl, hj, ht⟩, fun _ => by
            simp [execute_catalog_source, hj, ht]⟩
        · intro info h
          simp only [execute_catalog_source, hj, ht, if_true, if_pos] at h
          have hinfo : info.jobId = v := by
            have := (Prod.mk.injEq _ _ _ _).mp h
            obtain ⟨-, h2⟩ := this
            injection h2 with h2
            rw [← h2]
          refine ⟨by rw [hinfo]; exact ht, fun s hs => ?_⟩
          rw [hinfo] at hs
          rw [hs] at ht
          simpa [pyTruthy] using ht
      · have htf : pyTruthy v = false := by
          cases hpt : pyTruthy v
          · rfl
          · exact absurd hpt ht
        constructor
        · constructor
          · intro h
            simp [execute_catalog_source, hj, htf] at h
          · rintro ⟨r2, v2, hr, hg, ht2⟩
            injection hr with hr
            rw [← hr, hj] at hg
            injection hg with hg
            rw [← hg] at ht2
            exact absurd ht2 ht
        · intro info h
          simp [execute_catalog_source, hj, htf] at h

/-- Witness for C6: a successful launch whose response holds `jobId = "J1"`
yields a job handle with that truthy, non-empty job identifier. -/
theorem mcc_c6_witness :
    pyTruthy (JobInfo.mk (Val.str "J1") none (some (Val.str "S"))
      (some (Val.str "id1"))).jobId = true
    ∧ (∀ s, (JobInfo.mk (Val.str "J1") none (some (Val.str "S"))
        (some (Val.str "id1"))).jobId = Val.str s → s ≠ "") :=
  (mcc_c6 ⟨[("core.name", Val.str "S")], [("core.origin", Val.str "id1")]⟩
    (Except.ok [("jobId", Val.str "J1")])).2
    (JobInfo.mk (Val.str "J1") none (some (Val.str "S")) (some (Val.str "id1")))
    (by decide)

/-! Monitor lemmas and claims. -/

theorem pyUpper_isStr (v : Val) (h : v.isStr = true) :
    pyUpper v = Except.ok (pyStrUpper v.strD) := by
  cases v with
  | str s => rfl
  | blob b n => simp [Val.isStr] at h

theorem monitor_go_timeout (script : List Dict) (p t e f : Nat) (h : e > t) :
    monitor_go script p t e f = ⟨false, none, f⟩ := by
  rw [monitor_go.eq_def, if_pos h]

theorem monitor_go_eq_of_error (status : Dict) (rest : List Dict) (p t e f : Nat) (err : Unit)
    (he : ¬ e > t) (hpy : pyUpper (dictGetD status "status" (Val.str "")) = Except.error err) :
    monitor_go (status :: rest) p t e f = ⟨false, none, f + 1⟩ := by
  rw [monitor_go.eq_def, if_neg he]
  simp [hpy]

theorem monitor_go_eq_of_ok (status : Dict) (rest : List Dict) (p t e f : Nat)
    (job_state : String) (he : ¬ e > t)
    (hpy : pyUpper (dictGetD status "status" (Val.str "")) = Except.ok job_state) :
    monitor_go (status :: rest) p t e f =
      (if job_state ∈ (["COMPLETED", "SUCCESS", "SUCCESSFUL"] : List String) then
        ⟨true, some status, f + 1⟩
      else if job_state ∈ (["PARTIAL_COMPLETED"] : List String) then
        ⟨true, some status, f + 1⟩
      else if job_state ∈ (["FAILED", "ERROR", "CANCELLED"] : List String) then
        ⟨false, none, f + 1⟩
      else monitor_go rest p t (e + p) (f + 1)) := by
  rw [monitor_go.eq_def, if_neg he]
  simp [hpy]

theorem monitor_go_finalStatus_none (script : List Dict) (p t e f : Nat)
    (h : (monitor_go script p t e f).success = false) :
    (monitor_go script p t e f).finalStatus = none := by
  induction script generalizing e f with
  | nil =>
    rw [monitor_go.eq_def]
    split <;> rfl
  | cons status rest ih =>
    by_cases he : e > t
    · rw [monitor_go_timeout _ _ _ _ _ he]
    · cases hpy : pyUpper (dictGetD status "status" (Val.str "")) with
      | error err => rw [monitor_go_eq_of_error _ _ _ _ _ _ _ he hpy]
      | ok job_state =>
        rw [monitor_go_eq_of_ok _ _ _ _ _ _ _ he hpy] at h ⊢
        by_cases m1 : job_state ∈ (["COMPLETED", "SUCCESS", "SUCCESSFUL"] : List String)
        · rw [if_pos m1] at h; simp at h
        · rw [if_neg m1] at h ⊢
          by_cases m2 : job_state ∈ (["PARTIAL_COMPLETED"] : List String)
          · rw [if_pos m2] at h; simp at h
          · rw [if_neg m2] at h ⊢
            by_cases m3 : job_state ∈ (["FAILED", "ERROR", "CANCELLED"] : List String)
            · rw [if_pos m3]
            · rw [if_neg m3] at h ⊢
              exact ih (e + p) (f + 1) h

theorem monitor_go_complete (d : Dict) (post : List Dict) (p t : Nat) :
    ∀ (pre : List Dict) (e f : Nat),
      (∀ x ∈ pre, (dictGetD x "status" (Val.str "")).isStr = true
        ∧ ¬ isTerminalState (job_state_of x)) →
      (dictGetD d "status" (Val.str "")).isStr = true →
      isSuccState (job_state_of d) →
      e + pre.length * p ≤ t →
      monitor_go (pre ++ d :: post) p t e f = ⟨true, some d, f + (pre.length + 1)⟩ := by
  intro pre
  induction pre with
  | nil =>
    intro e f _ hd hsucc hle
    have he : ¬ e > t := by simp at hle; omega
    have hpy : pyUpper (dictGetD d "status" (Val.str "")) = Except.ok (job_state_of d) := by
      rw [pyUpper_isStr _ hd]; rfl
    rw [List.nil_append, monitor_go_eq_of_ok _ _ _ _ _ _ _ he hpy]
    simp only [isSuccState, List.mem_cons, List.not_mem_nil, or_false] at hsucc
    rcases hsucc with h | h | h | h <;> rw [h] <;> simp
  | cons q pre ih =>
    intro e f hpre hd hsucc hle
    have hq := hpre q (List.mem_cons_self q pre)
    have hpre2 : ∀ x ∈ pre, (dictGetD x "status" (Val.str "")).isStr = true
        ∧ ¬ isTerminalState (job_state_of x) :=
      fun x hx => hpre x (List.mem_cons_of_mem q hx)
    have hle2 : (e + p) + pre.length * p ≤ t := by
      rw [List.length_cons, Nat.succ_mul] at hle
      omega
    have he : ¬ e > t := by
      have h1 : e ≤ e + (q :: pre).length * p := Nat.le_add_right _ _
      omega
    have hpy : pyUpper (dictGetD q "status" (Val.str "")) = Except.ok (job_state_of q) := by
      rw [pyUpper_isStr _ hq.1]; rfl
    have hnt := hq.2
    simp only [isTerminalState, isSuccState, isFailState, List.mem_cons,
      List.not_mem_nil, or_false] at hnt
    push_neg at hnt
    obtain ⟨⟨n1, n2, n3, n4⟩, n5, n6, n7⟩ := hnt
    rw [List.cons_append, monitor_go_eq_of_ok _ _ _ _ _ _ _ he hpy,
      if_neg (by simp [List.mem_cons, n1, n2, n3]), if_neg (by simp [List.mem_cons, n4]),
      if_neg (by simp [List.mem_cons, n5, n6, n7]),
      ih (e + p) (f + 1) hpre2 hd hsucc hle2]
    simp [List.length_cons]
    omega

theorem monitor_go_sound (script : List Dict) (p t : Nat) :
    ∀ e f, (∀ x ∈ script, (dictGetD x "status" (Val.str "")).isStr = true) →
      (monitor_go script p t e f).success = true →
      ∃ pre d post, script = pre ++ d :: post ∧ isSuccState (job_state_of d)
        ∧ (∀ x ∈ pre, ¬ isTerminalState (job_state_of x))
        ∧ e + pre.length * p ≤ t := by
  induction script with
  | nil =>
    intro e f _ h
    rw [monitor_go.eq_def] at h
    split at h <;> simp at h
  | cons status rest ih =>
    intro e f hstr h
    by_cases he : e > t
    · rw [monitor_go_timeout _ _ _ _ _ he] at h
      simp at h
    · have hs := hstr status (List.mem_cons_self status rest)
      have hrest : ∀ x ∈ rest, (dictGetD x "status" (Val.str "")).isStr = true :=
        fun x hx => hstr x (List.mem_cons_of_mem status hx)
      have hpy : pyUpper (dictGetD status "status" (Val.str ""))
          = Except.ok (job_state_of status) := by
        rw [pyUpper_isStr _ hs]; rfl
      rw [monitor_go_eq_of_ok _ _ _ _ _ _ _ he hpy] at h
      by_cases m1 : job_state_of status ∈ (["COMPLETED", "SUCCESS", "SUCCESSFUL"] : List String)
      · refine ⟨[], status, rest, rfl, ?_, by simp, by simp; omega⟩
        simp only [isSuccState, List.mem_cons, List.not_mem_nil, or_false] at m1 ⊢
        tauto
      · rw [if_neg m1] at h
        by_cases m2 : job_state_of status ∈ (["PARTIAL_COMPLETED"] : List String)
        · refine ⟨[], status, rest, rfl, ?_, by simp, by simp; omega⟩
          simp only [isSuccState, List.mem_cons, List.not_mem_nil, or_false] at m2 ⊢
          tauto
        · rw [if_neg m2] at h
          by_cases m3 : job_state_of status ∈ (["FAILED", "ERROR", "CANCELLED"] : List String)
          · rw [if_pos m3] at h
            simp at h
          · rw [if_neg m3] at h
            obtain ⟨pre, d, post, heq, hsucc, hpre, hle⟩ := ih (e + p) (f + 1) hrest h
            refine ⟨status :: pre, d, post, by rw [heq, List.cons_append], hsucc, ?_, ?_⟩
            · intro x hx
              rcases List.mem_cons.mp hx with rfl | hx2
              · intro hterm
                rcases hterm with hterm | hterm
                · simp only [isSuccState, List.mem_cons, List.not_mem_nil, or_false] at hterm
                  simp only [List.mem_cons, List.not_mem_nil, or_false] at m1 m2
                  tauto
                · simp only [isFailState, List.mem_cons, List.not_mem_nil, or_false] at hterm
                  simp only [List.mem_cons, List.not_mem_nil, or_false] at m3
                  tauto
              · exact hpre x hx2
            · rw [List.length_cons, Nat.succ_mul]
              omega

/-- Claim C1: the monitor reports success exactly when the first terminal
remote state observed (after case-insensitive normalization) belongs to
COMPLETED/SUCCESS/SUCCESSFUL or is PARTIAL_COMPLETED, observed before the
timeout elapses; every failure exit (FAILED/ERROR/CANCELLED first, timeout,
or a polling fault) returns `(success = false, none)`; non-terminal states
keep the monitor polling. -/
theorem mcc_c1 (script : List Dict) (poll_interval timeout : Nat)
    (hstr : ∀ d ∈ script, (dictGetD d "status" (Val.str "")).isStr = true) :
    ((monitor_job script poll_interval timeout).success = true ↔
      FirstTerminalIsSuccess script poll_interval timeout)
    ∧ ((monitor_job script poll_interval timeout).success = false →
        (monitor_job script poll_interval timeout).finalStatus = none)
    ∧ (∀ pre d post, script = pre ++ d :: post → isSuccState (job_state_of d) →
        (∀ x ∈ pre, ¬ isTerminalState (job_state_of x)) →
        pre.length * poll_interval ≤ timeout →
        monitor_job script poll_interval timeout = ⟨true, some d, pre.length + 1⟩) := by
  have comp : ∀ pre d post, script = pre ++ d :: post → isSuccState (job_state_of d) →
      (∀ x ∈ pre, ¬ isTerminalState (job_state_of x)) →
      pre.length * poll_interval ≤ timeout →
      monitor_job script poll_interval timeout = ⟨true, some d, pre.length + 1⟩ := by
    intro pre d post heq hsucc hpre hle
    have hstr2 : ∀ x ∈ pre, (dictGetD x "status" (Val.str "")).isStr = true
        ∧ ¬ isTerminalState (job_state_of x) := by
      intro x hx
      exact ⟨hstr x (by rw [heq]; exact List.mem_append_left _ hx), hpre x hx⟩
    have hd : (dictGetD d "status" (Val.str "")).isStr = true :=
      hstr d (by rw [heq]; exact List.mem_append_right _ (List.mem_cons_self d post))
    unfold monitor_job
    rw [heq, monitor_go_complete d post poll_interval timeout pre 0 0 hstr2 hd hsucc
      (by simpa using hle)]
    simp
  refine ⟨⟨?_, ?_⟩, fun h => monitor_go_finalStatus_none _ _ _ _ _ h, comp⟩
  · intro h
    obtain ⟨pre, d, post, heq, hsucc, hpre, hle⟩ :=
      monitor_go_sound script poll_interval timeout 0 0 hstr h
    exact ⟨pre, d, post, heq, hsucc, hpre, by simpa using hle⟩
  · rintro ⟨pre, d, post, heq, hsucc, hpre, hle⟩
    rw [comp pre d post heq hsucc hpre hle]

/-- Witness for C1 at a concrete status script whose second response is the
caveat-success state `partial_completed` (lower case, exercising
normalization). -/
theorem mcc_c1_witness :
    ((monitor_job [[("status", Val.str "Running")], [("status", Val.str "partial_completed")]]
        5 100).success = true ↔
      FirstTerminalIsSuccess [[("status", Val.str "Running")],
        [("status", Val.str "partial_completed")]] 5 100)
    ∧ ((monitor_job [[("status", Val.str "Running")], [("status", Val.str "partial_completed")]]
          5 100).success = false →
        (monitor_job [[("status", Val.str "Running")], [("status", Val.str "partial_completed")]]
          5 100).finalStatus = none)
    ∧ (∀ pre d post,
        [[("status", Val.str "Running")], [("status", Val.str "partial_completed")]]
          = pre ++ d :: post →
        isSuccState (job_state_of d) →
        (∀ x ∈ pre, ¬ isTerminalState (job_state_of x)) →
        pre.length * 5 ≤ 100 →
        monitor_job [[("status", Val.str "Running")], [("status", Val.str "partial_completed")]]
          5 100 = ⟨true, some d, pre.length + 1⟩) :=
  mcc_c1 [[("status", Val.str "Running")], [("status", Val.str "partial_completed")]] 5 100
    (by decide)

/-- Claim C4: at the top of any loop iteration whose elapsed time exceeds
the timeout, the monitor returns `(success = false, none)` to its caller
without issuing that iteration's status fetch (the fetch count is
unchanged) and without raising (the `TimeoutError` is caught internally). -/
theorem mcc_c4 (script : List Dict) (poll_interval timeout elapsed fetches : Nat)
    (h : elapsed > timeout) :
    monitor_go script poll_interval timeout elapsed fetches
      = ⟨false, none, fetches⟩ :=
  monitor_go_timeout script poll_interval timeout elapsed fetches h

/-- Witness for C4 at a concrete over-deadline loop entry. -/
theorem mcc_c4_witness :
    6 > 5 ∧ monitor_go [[("status", Val.str "RUNNING")]] 2 5 6 7
      = ⟨false, none, 7⟩ :=
  ⟨by decide, mcc_c4 [[("status", Val.str "RUNNING")]] 2 5 6 7 (by decide)⟩

/-- Claim C8: on the status sequence RUNNING, RUNNING, COMPLETED with a zero
poll interval, the monitor returns success after exactly three status
fetches and never issues a fourth, whatever responses would follow and for
every timeout. -/
theorem mcc_c8 (timeout : Nat) (extra : List Dict) :
    monitor_job ([[("status", Val.str "RUNNING")], [("status", Val.str "RUNNING")],
        [("status", Val.str "COMPLETED")]] ++ extra) 0 timeout
      = ⟨true, some [("status", Val.str "COMPLETED")], 3⟩ := by
  have h := monitor_go_complete [("status", Val.str "COMPLETED")] extra 0 timeout
    [[("status", Val.str "RUNNING")], [("status", Val.str "RUNNING")]] 0 0
    (by
      intro x hx
      simp only [List.mem_cons, List.not_mem_nil, or_false] at hx
      rcases hx with rfl | rfl <;> exact ⟨by decide, by decide⟩)
    (by decide) (by decide) (by simp)
  unfold monitor_job
  simpa using h

/-! Batch-import claims. -/

/-- Counterexample to C3 as stated: on a concrete two-file batch (one valid
record and one unreadable file) the batch call returns Python `None`
(modelled `BatchReturn.pyNone`) — it carries no `{created, updated, skipped,
failed}` counts — while the loop still processes both files. -/
theorem mcc_c3_counterexample :
    import_all_from_directory ⟨Except.ok [], fun _ _ => Except.ok [], fun _ => Except.ok []⟩
      [("a.json", Except.ok [("name", Val.str "A")]), ("b.json", Except.error ())] true
      = (BatchReturn.pyNone,
         [([WriteCall.create [("name", Val.str "A")]], some Action.Created), ([], none)]) := by
  decide

/-- Claim C3 (amended): the batch import returns no per-record counts —
Python `None` after a non-empty run, or `[]` when the directory holds no
JSON files — while an exception from any single record is caught inside the
loop, so every JSON file of the listing is processed and contributes exactly
one outcome. -/
theorem mcc_c3 (client : Client) (files : List (String × Except Unit Dict))
    (update_if_exists : Bool) :
    ((files.filter (fun f => pyEndsWith f.1 ".json")).isEmpty = true →
      import_all_from_directory client files update_if_exists = (BatchReturn.emptyList, []))
    ∧ ((files.filter (fun f => pyEndsWith f.1 ".json")).isEmpty = false →
      (import_all_from_directory client files update_if_exists).1 = BatchReturn.pyNone
      ∧ (import_all_from_directory client files update_if_exists).2.length
          = (files.filter (fun f => pyEndsWith f.1 ".json")).length)
    ∧ (∀ f ∈ files, pyEndsWith f.1 ".json" = true →
        processFileOutcome client update_if_exists f.2
          ∈ (import_all_from_directory client files update_if_exists).2) := by
  refine ⟨fun h => ?_, fun h => ?_, fun f hf hj => ?_⟩
  · simp [import_all_from_directory, h]
  · simp [import_all_from_directory, h]
  · have hmem : f ∈ files.filter (fun f => pyEndsWith f.1 ".json") :=
      List.mem_filter.mpr ⟨hf, hj⟩
    have hne : (files.filter (fun f => pyEndsWith f.1 ".json")).isEmpty = false := by
      cases hc : (files.filter (fun f => pyEndsWith f.1 ".json")).isEmpty
      · rfl
      · rw [List.isEmpty_iff.mp hc] at hmem
        simp at hmem
    have hsnd : (import_all_from_directory client files update_if_exists).2
        = (files.filter (fun f => pyEndsWith f.1 ".json")).map
            (fun f => processFileOutcome client update_if_exists f.2) := by
      simp [import_all_from_directory, hne]
    rw [hsnd]
    exact List.mem_map_of_mem _ hmem

/-- Witness for C3 on a concrete mixed listing: a readable JSON file, an
unreadable JSON file and a non-JSON file. -/
theorem mcc_c3_witness :
    (import_all_from_directory ⟨Except.ok [], fun _ _ => Except.ok [], fun _ => Except.ok []⟩
        [("a.json", Except.ok [("name", Val.str "A")]), ("b.json", Except.error ()),
         ("notes.txt", Except.ok [])] true).1 = BatchReturn.pyNone
    ∧ (import_all_from_directory ⟨Except.ok [], fun _ _ => Except.ok [], fun _ => Except.ok []⟩
        [("a.json", Except.ok [("name", Val.str "A")]), ("b.json", Except.error ()),
         ("notes.txt", Except.ok [])] true).2.length
      = ([("a.json", Except.ok [("name", Val.str "A")]), ("b.json", Except.error ()),
          ("notes.txt", Except.ok [])].filter (fun f => pyEndsWith f.1 ".json")).length :=
  (mcc_c3 ⟨Except.ok [], fun _ _ => Except.ok [], fun _ => Except.ok []⟩
    [("a.json", Except.ok [("name", Val.str "A")]), ("b.json", Except.error ()),
     ("notes.txt", Except.ok [])] true).2.1 (by decide)

end Mcc
